import Mathlib

/-!
Verification of the action-binding core of the `type-server` repository.

The repository's core is a TypeScript decorator engine that exposes the
methods of an entity class through REST and GraphQL adapters.  The parts the
claims are about are embedded here shallowly:

* the permission evaluator `convertToValue` (src/utils/types.ts);
* the method classifiers `isStaticMethod` / `isInstanceMethod`
  (src/utils/typescript.ts);
* the three instance lifters: `PrepareModel` (src/model.ts),
  `createStaticMethod` (part_004) and `InstanceTypeRESTAction` /
  `InstanceTypeGQLAction` (part_001);
* reflection metadata tables and the metadata-copy loop of the lifter;
* the option-merging of the `Action` decorator (part_001 / part_004), the
  `StaticTypeRESTAction` / `StaticTypeGQLAction` dispatch switches;
* the snake-case name derivation used by `Action`;
* the GraphQL type inference `isEnum` / `getGraphQLType`
  (src/utils/typescript.ts, src/parameter.ts).

JavaScript strings are sequences of UTF-16 code units and are modelled as
`List Nat` (one `Nat` per code unit); JavaScript objects that the code only
stores and tests for presence are modelled as association lists.  Machine
arithmetic does not occur in the embedded fragments.
-/

namespace TypeServer

/-! ## Permission evaluator (src/utils/types.ts)

`ValOrPred<T, Arguments>` is the union type `T | ((...args) => boolean)`.
`convertToValue(value, ...args)` returns `value(...args)` when
`typeof value === "function"`, else `value` itself; its TypeScript return
type is the union `T | boolean`, embedded as `Sum T Bool`. -/

inductive ValOrPred (T : Type) (Args : Type) where
  | val (t : T)
  | pred (f : Args → Bool)

/-- Embedding of `convertToValue` (src/utils/types.ts, lines 26-36):
the `typeof value === "function"` branch applies the predicate to the
supplied arguments, the other branch returns the value unchanged. -/
def convertToValue {T Args : Type} (value : ValOrPred T Args) (args : Args) : Sum T Bool :=
  match value with
  | ValOrPred.pred f => Sum.inr (f args)
  | ValOrPred.val t => Sum.inl t

/-- A permission rule is a `ValOrPred` whose value side is a plain boolean
(spec: "a value (plain boolean) or a predicate taking a CRUD-phase context"). -/
abbrev PermissionRule (Ctx : Type) := ValOrPred Bool Ctx

/-- The boolean a permission rule evaluates to: both sides of the union
returned by `convertToValue` are booleans when `T = Bool`, matching the
JavaScript truthiness test `if (convertToValue(rule, ctx))`. -/
def ruleValue {Ctx : Type} (rule : PermissionRule Ctx) (ctx : Ctx) : Bool :=
  match convertToValue rule ctx with
  | Sum.inl b => b
  | Sum.inr b => b

/-! ## Method classifier (src/utils/typescript.ts)

A JavaScript member table maps a member name to a value that either is or
is not a function (`typeof x === "function"`).  `isStaticMethod(type, k)`
reads the class's own table; `isInstanceMethod(instance, k)` reads the
members reachable on a constructed instance and consults
`instance.constructor` for the static table. -/

inductive JSMember where
  | func
  | nonFunc
deriving DecidableEq

abbrev MemberTable := List (String × JSMember)

/-- `methodName in obj` — the member is present on the object. -/
def memberIn (table : MemberTable) (k : String) : Bool :=
  (table.lookup k).isSome

/-- `typeof obj[methodName] === "function"`. -/
def typeofIsFunction (table : MemberTable) (k : String) : Bool :=
  match table.lookup k with
  | some JSMember.func => true
  | _ => false

structure JSClassShape where
  statics : MemberTable

structure JSInstanceShape where
  ctor : JSClassShape
  members : MemberTable

/-- Embedding of `isStaticMethod` (src/utils/typescript.ts, lines 4-6):
`methodName in type && typeof type[methodName] === "function"`. -/
def isStaticMethod (type_ : JSClassShape) (methodName : String) : Bool :=
  memberIn type_.statics methodName && typeofIsFunction type_.statics methodName

/-- Embedding of `isInstanceMethod` (src/utils/typescript.ts, lines 8-14):
`methodName in instance && typeof instance[methodName] === "function" &&
!isStaticMethod(instance.constructor, methodName)`. -/
def isInstanceMethod (inst : JSInstanceShape) (methodName : String) : Bool :=
  memberIn inst.members methodName
    && typeofIsFunction inst.members methodName
    && !(isStaticMethod inst.ctor methodName)

/-- The shape part_002's classifier variant reads: the repository also
ships a second `isInstanceMethod` (part_002, lines 10-19, imported as
`utils/utils` by the `AddCRUDAPI` section of src/model.ts) whose third
conjunct is `!(methodName in instance.prototype)` — a membership test on
the argument's own `prototype` property instead of a call to
`isStaticMethod(instance.constructor, ...)`.  Applied to a class object,
`members` are the class's own (static) members and `proto` is the
class's `prototype` object. -/
structure JSClassWithProto where
  members : MemberTable
  proto : MemberTable

/-- Embedding of `isStaticMethod` (part_002, lines 3-8) applied to a
class object: same test as src/utils/typescript.ts. -/
def isStaticMethodPart002 (type_ : JSClassWithProto) (methodName : String) : Bool :=
  memberIn type_.members methodName && typeofIsFunction type_.members methodName

/-- Embedding of `isInstanceMethod` (part_002, lines 10-19) applied to a
class object: `methodName in instance && typeof instance[methodName] ===
"function" && !(methodName in instance.prototype)`. -/
def isInstanceMethodPart002 (type_ : JSClassWithProto) (methodName : String) : Bool :=
  memberIn type_.members methodName
    && typeofIsFunction type_.members methodName
    && !(memberIn type_.proto methodName)

/-! ## Instance lifter

The repository synthesizes the lifted static callable in three places:

* `PrepareModel` (src/model.ts, lines 1188-1199):
  `async (id, ...args) => { const instance = await target.findOne.call(target,
  { where: { id } }); if (!instance) throw new Error("Instance not found");
  return property.apply(instance, args); }` — `findOne` returns
  `Promise<T | null>`, `null` is falsy, so the existence check is live and
  is modelled as `Nat → Option Entity` with `none` the falsy no-match
  result;

* `createStaticMethod` (part_004, lines 201-210):
  `async (id, ...args) => { const instance = await target.findBy({ id });
  if (!instance) throw new Error("Instance not found");
  return instanceMethod.apply(instance, args); }` — but `findBy` is
  declared by the repository itself to return `Promise<T[]>`
  (src/methods.ts lines 432-437, src/model.ts lines 342-347 and
  1039-1044, as does TypeORM's `BaseEntity.findBy`), so the awaited
  `instance` is an array, a JavaScript object that is truthy even when
  empty; the `!instance` guard can never fire and the load is modelled
  as `Nat → List Entity` with `[]` the no-match result;

* `InstanceTypeRESTAction` / `InstanceTypeGQLAction` (part_001, lines
  192-195 and 232-235): `const instance = props.findById(id);
  return instanceMethod.apply(instance, args);` — no await, no existence
  check, no NotFound path at all. -/

inductive LiftError where
  | instanceNotFound
deriving DecidableEq

/-- Embedding of the static callable synthesized by `PrepareModel`
(src/model.ts, lines 1188-1199): load one entity by identifier via
`findOne`, fail when the falsy `null` comes back, otherwise apply the
original instance method to the loaded entity and the remaining
arguments. -/
def prepareModelLiftedCall {Entity Args Result : Type}
    (findOne : Nat → Option Entity)
    (instanceMethod : Entity → Args → Result)
    (id : Nat) (args : Args) : Except LiftError Result :=
  match findOne id with
  | none => Except.error LiftError.instanceNotFound
  | some loaded => Except.ok (instanceMethod loaded args)

/-- JavaScript truthiness of an array value: every array is an object and
every object is truthy, the empty array included. -/
def arrayTruthy {Entity : Type} (_loaded : List Entity) : Bool :=
  true

/-- Embedding of the static callable synthesized by `createStaticMethod`
(part_004, lines 201-210): the awaited `findBy({ id })` result is an
array (`Promise<T[]>`), so the `if (!instance)` guard tests the
truthiness of an array and the NotFound branch is dead code; the instance
method is invoked with `this` bound to the array whatever the load
returned — on a no-match identifier, bound to `[]`. -/
def createStaticMethodCallPart004 {Entity Args Result : Type}
    (findBy : Nat → List Entity)
    (instanceMethod : List Entity → Args → Result)
    (id : Nat) (args : Args) : Except LiftError Result :=
  let loaded := findBy id
  if !(arrayTruthy loaded) then Except.error LiftError.instanceNotFound
  else Except.ok (instanceMethod loaded args)

/-- The `this` argument the part_001 variant passes to the instance method:
`props.findById(id)` is not awaited, so the method is applied to the
promise of the load result, whatever that result is. -/
inductive JSThisArg (Entity : Type) where
  | promiseOf (value : Option Entity)

/-- Embedding of the static callable synthesized inside
`InstanceTypeRESTAction` / `InstanceTypeGQLAction` (part_001, lines
192-195 and 232-235): `const instance = props.findById(id);
return instanceMethod.apply(instance, args);` — no await, no existence
check, no NotFound path; the instance method is invoked unconditionally. -/
def instanceLiftedCallPart001 {Entity Args Result : Type}
    (findById : Nat → Option Entity)
    (instanceMethod : JSThisArg Entity → Args → Result)
    (id : Nat) (args : Args) : Result :=
  instanceMethod (JSThisArg.promiseOf (findById id)) args

/-! ## Permission gate

`EnforcePermission` is applied to the generated CRUD endpoints in
src/model.ts (`AddCRUDAPI`, lines 548-600) but is defined nowhere under
the repository's sources; only its call sites exist.  It is therefore
modelled from the spec. -/

inductive CallError where
  | authorization
  | notFound
deriving DecidableEq

/-- Modelled from the spec: `EnforcePermission` — invoked at
src/model.ts lines 548-600 but missing from the repository's sources.
Spec §4.5: "Denial (`false`) must cause the bound action to refuse
execution and report an Authorization failure"; §7: Authorization "must
prevent the wrapped handler from executing at all".  The rule is resolved
with the repository's own evaluator (`convertToValue`,
src/utils/types.ts); on allow it runs the wrapped handler. -/
def enforcePermission {Ctx R : Type} (rule : PermissionRule Ctx)
    (handler : Ctx → R) (ctx : Ctx) : Except CallError R :=
  if ruleValue rule ctx then Except.ok (handler ctx) else Except.error CallError.authorization

/-- A fully bound instance action, following the spec's control flow: the
permission evaluator gates execution before the lifted callable runs, and
the lifted callable (the falsy-checking lifter synthesized by
`PrepareModel`, src/model.ts lines 1188-1199) performs the load and then
the instance method. -/
def boundInstanceAction {Ctx Entity Args Result : Type}
    (rule : PermissionRule Ctx) (findBy : Nat → Option Entity)
    (instanceMethod : Entity → Args → Result)
    (ctx : Ctx) (id : Nat) (args : Args) : Except CallError Result :=
  match enforcePermission rule (fun _ => prepareModelLiftedCall findBy instanceMethod id args) ctx with
  | Except.error e => Except.error e
  | Except.ok (Except.error LiftError.instanceNotFound) => Except.error CallError.notFound
  | Except.ok (Except.ok r) => Except.ok r

/-! ## Reflection metadata (the lifter's metadata-copy loop)

`createStaticMethod` (part_004, lines 215-219) and the part_001 lifters
(lines 200-204) copy every metadata key of the instance method onto the
synthesized static callable:
`for (const key of Reflect.getMetadataKeys(instanceMethod))
   Reflect.defineMetadata(key, Reflect.getMetadata(key, instanceMethod), staticMethod)`.
A per-callable metadata store is modelled as an association list read
through its most recent definition. -/

abbrev Metadata (V : Type) := List (String × V)

/-- `Reflect.getMetadataKeys(target)` — the keys defined on the callable. -/
def getMetadataKeys {V : Type} (m : Metadata V) : List String :=
  m.map Prod.fst

/-- `Reflect.getMetadata(key, target)`. -/
def getMetadata {V : Type} (key : String) (m : Metadata V) : Option V :=
  m.lookup key

/-- `Reflect.defineMetadata(key, value, target)` — a later definition
shadows an earlier one for the same key. -/
def defineMetadata {V : Type} (key : String) (v : V) (m : Metadata V) : Metadata V :=
  (key, v) :: m

/-- The metadata-copy loop of the instance lifter, iterating over the
source callable's keys exactly as the `for (const key of ...)` loop does. -/
def copyMetadata {V : Type} (srcMeta dstMeta : Metadata V) : Metadata V :=
  (getMetadataKeys srcMeta).foldl
    (fun acc key =>
      match getMetadata key srcMeta with
      | some v => defineMetadata key v acc
      | none => acc)
    dstMeta

/-! ## Static-member registration

Both lifters register the synthesized callable with a plain property
assignment, `(target as any)[staticName] = staticMethod` (part_004 line
213, part_001 lines 197-198): no existence check, no error path.  The
class's static-member slots are modelled as an association list whose
most recent assignment is the visible one. -/

abbrev StaticsTable (F : Type) := List (String × F)

/-- `target[staticName] = staticMethod` — unconditional assignment; a
previous member of the same name is shadowed, never reported. -/
def assignStaticMember {F : Type} (target : StaticsTable F)
    (staticName : String) (staticMethod : F) : StaticsTable F :=
  (staticName, staticMethod) :: target

/-- Property read `target[name]`. -/
def getStaticMember {F : Type} (target : StaticsTable F) (name : String) : Option F :=
  target.lookup name

/-- A sequence of registrations applied in order. -/
def assignAll {F : Type} (target : StaticsTable F) (regs : List (String × F)) : StaticsTable F :=
  regs.foldl (fun t r => assignStaticMember t r.1 r.2) target

/-- The value of the last registration for `name` in a sequence, if any. -/
def lastAssigned {F : Type} (regs : List (String × F)) (name : String) : Option F :=
  match regs with
  | [] => none
  | r :: rs =>
    match lastAssigned rs name with
    | some v => some v
    | none => if r.1 = name then some r.2 else none

/-! ## Canonical name derivation (the `Action` decorators)

`Action` (part_001 lines 265-267, part_004 lines 282-284, and
src/methods.ts lines 37-39) derives the canonical action name with
`propertyKey.replace(/[A-Z]/g, (m) => "_" + m.toLowerCase()).replace(/^_/, "")`:
an underscore is inserted before each upper-case ASCII letter, that letter
is lower-cased, and at most one leading underscore is then stripped.
Identifiers are sequences of UTF-16 code units, modelled as `List Nat`;
the regex `[A-Z]` matches exactly the code units 65-90 and `toLowerCase`
adds 32 to such a unit. -/

abbrev JChar := Nat

/-- The regex class `[A-Z]`: an upper-case ASCII letter. -/
def isUpperAscii (c : JChar) : Bool :=
  65 ≤ c && c ≤ 90

/-- `m.toLowerCase()` for a single matched `[A-Z]` unit (identity on
everything the regex does not match). -/
def toLowerChar (c : JChar) : JChar :=
  if isUpperAscii c then c + 32 else c

/-- An ASCII letter, upper- or lower-case. -/
def isAsciiLetter (c : JChar) : Bool :=
  isUpperAscii c || (97 ≤ c && c ≤ 122)

/-- `s.replace(/[A-Z]/g, (m) => "_" + m.toLowerCase())`. -/
def snakeCaseAux : List JChar → List JChar
  | [] => []
  | c :: cs =>
    if isUpperAscii c then 95 :: toLowerChar c :: snakeCaseAux cs
    else c :: snakeCaseAux cs

/-- `s.replace(/^_/, "")` — at most one leading underscore (code 95) is
removed. -/
def stripLeadingUnderscore : List JChar → List JChar
  | [] => []
  | c :: cs => if c = 95 then cs else c :: cs

/-- The snake-case name the `Action` decorators derive from a member
identifier. -/
def snakeCaseName (s : List JChar) : List JChar :=
  stripLeadingUnderscore (snakeCaseAux s)

/-- Two code units that are equal, or are the same ASCII letter in the
two cases. -/
def caseVariantChar (a b : JChar) : Bool :=
  a == b || (isAsciiLetter a && isAsciiLetter b && toLowerChar a == toLowerChar b)

/-- Two identifiers that differ only in the casing of their letters. -/
def onlyCaseDiffers : List JChar → List JChar → Bool
  | [], [] => true
  | a :: s, b :: t => caseVariantChar a b && onlyCaseDiffers s t
  | _, _ => false

/-- Whether an identifier starts with an upper-case ASCII letter. -/
def firstCharUpper : List JChar → Bool
  | [] => false
  | c :: _ => isUpperAscii c

/-! ## GraphQL type inference (src/utils/typescript.ts, src/parameter.ts)

`isEnum(value)` is `typeof value === "object" && value !== null &&
Object.values(value).every(v => typeof v === "string" || typeof v === "number")`.
`getGraphQLType(paramType)` then checks `paramType === GraphQLInt`, the
`Number` / `String` / `Boolean` constructors, `isEnum`, and falls back to
`GraphQLInputObjectType`.  A JavaScript value is modelled with plain
objects carried as field lists; `GraphQLInt` is the one GraphQL scalar
object the code compares against by reference — it is an object whose own
values include functions (`serialize`, `parseValue`), so `isEnum` is
false on it. -/

inductive JSTypeValue where
  | jsNull
  | jsUndefined
  | primNumber (n : Int)
  | primString (s : String)
  | primBool (b : Bool)
  | jsFunction
  | jsObject (fields : List (String × JSTypeValue))
  | ctorNumber
  | ctorString
  | ctorBoolean
  | gqlIntScalar

/-- The GraphQL type objects `getGraphQLType` can return. -/
inductive GQLTypeRef where
  | int
  | float
  | string
  | boolean
  | enumType
  | inputObjectType
deriving DecidableEq

/-- `typeof v === "string" || typeof v === "number"` for an object's own
property value. -/
def isStringOrNumber : JSTypeValue → Bool
  | JSTypeValue.primString _ => true
  | JSTypeValue.primNumber _ => true
  | _ => false

/-- Embedding of `isEnum` (src/utils/typescript.ts, lines 16-24).
`jsNull` has `typeof "object"` but fails `value !== null`; the
`GraphQLInt` scalar object has function-valued own properties, so its
`every` check fails; primitives, functions and the constructors fail the
`typeof` test. -/
def isEnum : JSTypeValue → Bool
  | JSTypeValue.jsObject fields => fields.all (fun kv => isStringOrNumber kv.2)
  | _ => false

/-- Embedding of `getGraphQLType` (src/parameter.ts, lines 26-33), with
the source's comparison order: `GraphQLInt` first, then the `Number`,
`String` and `Boolean` constructors, then `isEnum`, then the input-object
fallback. -/
def getGraphQLType (paramType : JSTypeValue) : GQLTypeRef :=
  match paramType with
  | JSTypeValue.gqlIntScalar => GQLTypeRef.int
  | JSTypeValue.ctorNumber => GQLTypeRef.float
  | JSTypeValue.ctorString => GQLTypeRef.string
  | JSTypeValue.ctorBoolean => GQLTypeRef.boolean
  | v => if isEnum v then GQLTypeRef.enumType else GQLTypeRef.inputObjectType

/-! ## Action descriptor construction (part_001 / part_004 `Action`)

`Action(props)` merges caller options over defaults with object spreads:
`props = { ...DEFAULT_ACTION_PROPS, path: "/" + snakeCaseName,
staticName: snakeCaseName + "Static", ...props,
...(props.typeRESTOptions ? { autogenTypeRest: true } : {}),
...(props.typeGQLQueryOptions ? { autogenTypeGQL: true } : {}),
...(props.typeGQLMutationOptions ? { autogenTypeGQL: true } : {}),
...(props.typeGQLSubscriptionOptions ? { autogenTypeGQL: true } : {}) }`
(part_001 lines 269-278, part_004 lines 286-295, identical in both).

Optional fields model presence: `none` is an absent (or `undefined`)
field, which an object spread does not override; every supplied options
object — the empty one included — is a truthy JavaScript object, so the
conditional spreads fire exactly when `isSome` holds.  The `restVerb` and
`gqlMethod` strings are modelled with one constructor per recognized
member of the union plus `other` for any runtime string outside it. -/

inductive RestVerb where
  | GET
  | POST
  | PUT
  | DELETE
  | PATCH
  | OPTIONS
  | HEAD
  | other (s : List JChar)
deriving DecidableEq

inductive GqlMethod where
  | query
  | mutation
  | subscription
  | other (s : List JChar)
deriving DecidableEq

/-- An options object handed through to a protocol adapter; its contents
are opaque to the binding engine. -/
abbrev OptionsObj := List (String × String)

structure ActionInputProps where
  path : Option (List JChar) := none
  restVerb : Option RestVerb := none
  typeRESTOptions : Option OptionsObj := none
  staticName : Option (List JChar) := none
  autogenTypeRest : Option Bool := none
  BodyOptions : Option OptionsObj := none
  QueryOptions : Option OptionsObj := none
  PathOptions : Option OptionsObj := none
  gqlMethod : Option GqlMethod := none
  typeGQLQueryOptions : Option OptionsObj := none
  typeGQLMutationOptions : Option OptionsObj := none
  typeGQLSubscriptionOptions : Option OptionsObj := none
  autogenTypeGQL : Option Bool := none
deriving DecidableEq

/-- One field of an object spread: the later (update) object wins when it
carries the key. -/
def overrideField {α : Type} (base upd : Option α) : Option α :=
  match upd with
  | some v => some v
  | none => base

/-- The object spread `{ ...base, ...upd }`, field by field. -/
def spreadMerge (base upd : ActionInputProps) : ActionInputProps :=
  { path := overrideField base.path upd.path,
    restVerb := overrideField base.restVerb upd.restVerb,
    typeRESTOptions := overrideField base.typeRESTOptions upd.typeRESTOptions,
    staticName := overrideField base.staticName upd.staticName,
    autogenTypeRest := overrideField base.autogenTypeRest upd.autogenTypeRest,
    BodyOptions := overrideField base.BodyOptions upd.BodyOptions,
    QueryOptions := overrideField base.QueryOptions upd.QueryOptions,
    PathOptions := overrideField base.PathOptions upd.PathOptions,
    gqlMethod := overrideField base.gqlMethod upd.gqlMethod,
    typeGQLQueryOptions := overrideField base.typeGQLQueryOptions upd.typeGQLQueryOptions,
    typeGQLMutationOptions := overrideField base.typeGQLMutationOptions upd.typeGQLMutationOptions,
    typeGQLSubscriptionOptions := overrideField base.typeGQLSubscriptionOptions upd.typeGQLSubscriptionOptions,
    autogenTypeGQL := overrideField base.autogenTypeGQL upd.autogenTypeGQL }

/-- `DEFAULT_TYPE_REST_ACTION_PROPS` (part_001 lines 23-32, part_004
lines 36-45); `path`, `restVerb` and `staticName` default to
`undefined`. -/
def DEFAULT_TYPE_REST_ACTION_PROPS : ActionInputProps :=
  { typeRESTOptions := some [],
    autogenTypeRest := some true,
    BodyOptions := some [],
    QueryOptions := some [],
    PathOptions := some [] }

/-- `DEFAULT_TYPE_GQL_ACTION_PROPS` (part_001 lines 45-52, part_004
lines 58-65); `typeGQLSubscriptionOptions` defaults to `undefined`. -/
def DEFAULT_TYPE_GQL_ACTION_PROPS : ActionInputProps :=
  { gqlMethod := some GqlMethod.query,
    typeGQLQueryOptions := some [],
    typeGQLMutationOptions := some [],
    autogenTypeGQL := some true }

/-- `DEFAULT_ACTION_PROPS = { ...DEFAULT_TYPE_GQL_ACTION_PROPS,
...DEFAULT_TYPE_REST_ACTION_PROPS }`. -/
def DEFAULT_ACTION_PROPS : ActionInputProps :=
  spreadMerge DEFAULT_TYPE_GQL_ACTION_PROPS DEFAULT_TYPE_REST_ACTION_PROPS

/-- The merged descriptor the `Action` decorators build: defaults, then
the derived `path` (`"/"` is code 47) and `staticName` (suffix `Static`),
then the caller's options, then the four conditional forcing spreads,
whose conditions read the caller-supplied `props` object. -/
def buildActionProps (propertyKey : List JChar) (props : ActionInputProps) : ActionInputProps :=
  let snake := snakeCaseName propertyKey
  let base := { DEFAULT_ACTION_PROPS with
    path := some (47 :: snake),
    staticName := some (snake ++ [83, 116, 97, 116, 105, 99]) }
  let merged := spreadMerge base props
  let merged := if props.typeRESTOptions.isSome then
    { merged with autogenTypeRest := some true } else merged
  let merged := if props.typeGQLQueryOptions.isSome then
    { merged with autogenTypeGQL := some true } else merged
  let merged := if props.typeGQLMutationOptions.isSome then
    { merged with autogenTypeGQL := some true } else merged
  let merged := if props.typeGQLSubscriptionOptions.isSome then
    { merged with autogenTypeGQL := some true } else merged
  merged

/-! ## Bind-time dispatch (part_004 / part_001 dispatch switches)

`StaticTypeRESTAction` (part_004 lines 81-142, part_001 lines 68-130)
switches on `props.restVerb` and throws `Invalid restVerb` from its
`default` arm; `StaticTypeGQLAction` (part_004 lines 144-185, part_001
lines 132-174) switches on `props.gqlMethod`, throws
`typeGQLSubscriptionOptions is required` when the subscription arm finds
no options object, and throws `Invalid gqlMethod` from its `default` arm.
All throws happen while the decorator is applied — bind time — so an
error means no route or operation is ever registered and no bound
callable exists to invoke. -/

structure RestBinding where
  verb : RestVerb
deriving DecidableEq

structure GqlBinding where
  operationKind : GqlMethod
deriving DecidableEq

inductive ConfigError where
  | invalidRestVerb
  | invalidGqlMethod
  | subscriptionOptionsRequired
deriving DecidableEq

/-- Embedding of the `StaticTypeRESTAction` switch: each recognized verb
registers a REST binding with the adapter; `undefined` or any other value
hits the `default` arm and throws at bind time. -/
def staticTypeRESTActionBind (props : ActionInputProps) : Except ConfigError RestBinding :=
  match props.restVerb with
  | some RestVerb.GET => Except.ok { verb := RestVerb.GET }
  | some RestVerb.POST => Except.ok { verb := RestVerb.POST }
  | some RestVerb.PUT => Except.ok { verb := RestVerb.PUT }
  | some RestVerb.DELETE => Except.ok { verb := RestVerb.DELETE }
  | some RestVerb.PATCH => Except.ok { verb := RestVerb.PATCH }
  | some RestVerb.OPTIONS => Except.ok { verb := RestVerb.OPTIONS }
  | some RestVerb.HEAD => Except.ok { verb := RestVerb.HEAD }
  | some (RestVerb.other _) => Except.error ConfigError.invalidRestVerb
  | none => Except.error ConfigError.invalidRestVerb

/-- Embedding of the `StaticTypeGQLAction` switch: `query` and `mutation`
register directly, `subscription` first requires
`props.typeGQLSubscriptionOptions`, and anything else hits the `default`
arm; every error is thrown at bind time. -/
def staticTypeGQLActionBind (props : ActionInputProps) : Except ConfigError GqlBinding :=
  match props.gqlMethod with
  | some GqlMethod.query => Except.ok { operationKind := GqlMethod.query }
  | some GqlMethod.mutation => Except.ok { operationKind := GqlMethod.mutation }
  | some GqlMethod.subscription =>
    match props.typeGQLSubscriptionOptions with
    | none => Except.error ConfigError.subscriptionOptionsRequired
    | some _ => Except.ok { operationKind := GqlMethod.subscription }
  | some (GqlMethod.other _) => Except.error ConfigError.invalidGqlMethod
  | none => Except.error ConfigError.invalidGqlMethod

/-- A caller-supplied props object that sets both autogen flags to false
while also supplying protocol-specific options objects. -/
def exampleForcedProps : ActionInputProps :=
  { typeRESTOptions := some [],
    autogenTypeRest := some false,
    typeGQLSubscriptionOptions := some [],
    autogenTypeGQL := some false }

/-! ## Theorems -/

/-- Reading an association list past a head entry with a different key. -/
theorem lookup_cons_ne {V : Type} (es : List (String × V)) (k k1 : String) (v : V)
    (h : k ≠ k1) : ((k1, v) :: es).lookup k = es.lookup k := by
  have hbeq : (k == k1) = false := beq_eq_false_iff_ne.mpr h
  simp [List.lookup, hbeq]

/-- Reading an association list at its head key. -/
theorem lookup_cons_self {V : Type} (es : List (String × V)) (k : String) (v : V) :
    ((k, v) :: es).lookup k = some v := by
  simp [List.lookup]

/-- A key listed by `getMetadataKeys` has a value. -/
theorem mem_keys_isSome {V : Type} (m : Metadata V) (k : String)
    (hk : k ∈ getMetadataKeys m) : (getMetadata k m).isSome = true := by
  induction m with
  | nil => simp [getMetadataKeys] at hk
  | cons hd tl ih =>
    obtain ⟨k1, v⟩ := hd
    by_cases heq : k = k1
    · subst heq
      simp [getMetadata, lookup_cons_self]
    · have hk' : k ∈ getMetadataKeys tl := by
        simp [getMetadataKeys] at hk ⊢
        tauto
      have := ih hk'
      simpa [getMetadata, lookup_cons_ne tl k k1 v heq] using this

/-- The copy loop leaves keys it never processes untouched. -/
theorem copyFold_lookup_of_notMem {V : Type} (srcMeta : Metadata V) (keys : List String)
    (acc : Metadata V) (k : String) (hk : k ∉ keys) :
    (keys.foldl
      (fun acc key =>
        match getMetadata key srcMeta with
        | some v => defineMetadata key v acc
        | none => acc) acc).lookup k = acc.lookup k := by
  induction keys generalizing acc with
  | nil => rfl
  | cons k1 ks ih =>
    have hk1 : k ≠ k1 := fun h => hk (by simp [h])
    have hks : k ∉ ks := fun h => hk (by simp [h])
    rw [List.foldl_cons, ih _ hks]
    cases h : getMetadata k1 srcMeta with
    | none => rfl
    | some v => simpa [defineMetadata] using lookup_cons_ne acc k k1 v hk1

/-- Every key the copy loop processes ends up with the source value. -/
theorem copyFold_lookup_of_mem {V : Type} (srcMeta : Metadata V) (keys : List String)
    (acc : Metadata V) (k : String) (hk : k ∈ keys)
    (hsome : (getMetadata k srcMeta).isSome = true) :
    (keys.foldl
      (fun acc key =>
        match getMetadata key srcMeta with
        | some v => defineMetadata key v acc
        | none => acc) acc).lookup k = getMetadata k srcMeta := by
  induction keys generalizing acc with
  | nil => simp at hk
  | cons k1 ks ih =>
    rw [List.foldl_cons]
    by_cases hmem : k ∈ ks
    · exact ih _ hmem
    · have hk1 : k = k1 := by
        rcases List.mem_cons.mp hk with h | h
        · exact h
        · exact absurd h hmem
      subst hk1
      rw [copyFold_lookup_of_notMem srcMeta ks _ k hmem]
      rcases Option.isSome_iff_exists.mp hsome with ⟨v, hv⟩
      rw [hv]
      simp [defineMetadata, lookup_cons_self]


/-- C4: the permission evaluator returns a plain boolean rule unchanged —
the result does not depend on the context at all — and applies a predicate
rule exactly to the supplied context, afresh on every evaluation: two
evaluations with different contexts each apply the predicate to their own
context (`convertToValue`, src/utils/types.ts). -/
theorem convertToValue_eval {T Args : Type} (t : T) (f : Args → Bool) (a a' : Args) :
    convertToValue (ValOrPred.val t) a = Sum.inl t
      ∧ convertToValue (ValOrPred.val t) a = convertToValue (ValOrPred.val t) a'
      ∧ convertToValue (ValOrPred.pred f : ValOrPred T Args) a = Sum.inr (f a)
      ∧ convertToValue (ValOrPred.pred f : ValOrPred T Args) a' = Sum.inr (f a') :=
  ⟨rfl, rfl, rfl, rfl⟩

/-- C5: the classification verdicts are mutually exclusive — for a
constructed instance and its class, `isStaticMethod` and
`isInstanceMethod` are never both true, because `isInstanceMethod`
explicitly rules out members also reachable as statics of the same name
(src/utils/typescript.ts). -/
theorem classifier_mutually_exclusive (inst : JSInstanceShape) (k : String) :
    (isStaticMethod inst.ctor k && isInstanceMethod inst k) = false := by
  cases h : isStaticMethod inst.ctor k <;> simp [isInstanceMethod, h]

/-- C1: at an identifier for which the persistence load finds no entity,
neither decorator lifter raises NotFound and both invoke the underlying
instance method: the part_001 lifter (`InstanceTypeRESTAction` /
`InstanceTypeGQLAction`) applies the method to the un-awaited promise of
the load, and the part_004 lifter (`createStaticMethod`) awaits
`findBy`, whose empty-array no-match result is truthy, so its
`if (!instance)` guard is dead and the method runs bound to the empty
array.  The claimed behavior — NotFound, method not invoked — is
implemented only by the `PrepareModel` lifter (`prepareModelLiftedCall`).
Evaluated at the failing input `id = 7` with a load that matches no
entity. -/
theorem instanceLift_notFound_divergence :
    instanceLiftedCallPart001 (fun _ => (none : Option Unit)) (fun _ _ => "instance method ran") 7 ()
        = "instance method ran"
      ∧ createStaticMethodCallPart004 (fun _ => ([] : List Unit)) (fun _ _ => "instance method ran") 7 ()
        = Except.ok "instance method ran" :=
  ⟨rfl, rfl⟩

/-- The part_004 lifter can never take its NotFound branch: for every
load function — the no-match empty array included — it invokes the
instance method bound to whatever array `findBy` returned. -/
theorem createStaticMethodCallPart004_never_notFound {Entity Args Result : Type}
    (findBy : Nat → List Entity) (m : List Entity → Args → Result)
    (id : Nat) (args : Args) :
    createStaticMethodCallPart004 findBy m id args = Except.ok (m (findBy id) args) :=
  rfl

/-- The `PrepareModel` lifter satisfies the spec's contract: when the
load returns no entity the call fails with NotFound and the result is
independent of the instance method (so the method is never consulted);
when an entity is returned, the original instance method is applied to
that entity and the remaining arguments. -/
theorem prepareModelLiftedCall_contract {Entity Args Result : Type}
    (findOne : Nat → Option Entity) (m m' : Entity → Args → Result)
    (id : Nat) (args : Args) :
    (findOne id = none →
        prepareModelLiftedCall findOne m id args = Except.error LiftError.instanceNotFound
          ∧ prepareModelLiftedCall findOne m id args = prepareModelLiftedCall findOne m' id args)
      ∧ ∀ e, findOne id = some e →
        prepareModelLiftedCall findOne m id args = Except.ok (m e args) := by
  constructor
  · intro h
    simp [prepareModelLiftedCall, h]
  · intro e h
    simp [prepareModelLiftedCall, h]

/-- Closed instance of `prepareModelLiftedCall_contract`. -/
theorem prepareModelLiftedCall_contract_witness :
    ((fun _ : Nat => (none : Option Unit)) 3 = none
        ∧ prepareModelLiftedCall (fun _ => (none : Option Unit)) (fun _ _ => (0 : Nat)) 3 ()
          = Except.error LiftError.instanceNotFound) :=
  ⟨rfl, ((prepareModelLiftedCall_contract (fun _ => none) (fun _ _ => 0) (fun _ _ => 1) 3 ()).1 rfl).1⟩

/-- C3: a permission rule that evaluates to deny makes the bound action
fail with an Authorization error before anything else happens: the result
is this same error for every persistence load function and every
underlying instance method, so neither the load nor the handler is ever
consulted (zero load invocations). -/
theorem permissionDenied_blocks_execution {Ctx Entity Args Result : Type}
    (rule : PermissionRule Ctx) (ctx : Ctx) (hdeny : ruleValue rule ctx = false) :
    ∀ (findBy : Nat → Option Entity) (instanceMethod : Entity → Args → Result)
      (id : Nat) (args : Args),
      boundInstanceAction rule findBy instanceMethod ctx id args
        = Except.error CallError.authorization := by
  intro findBy instanceMethod id args
  simp [boundInstanceAction, enforcePermission, hdeny]

/-- Closed instance of `permissionDenied_blocks_execution`: the constant
rule `false` denies, and the bound action reports Authorization. -/
theorem permissionDenied_blocks_execution_witness :
    ruleValue (ValOrPred.val false) () = false
      ∧ boundInstanceAction (ValOrPred.val false) (fun _ => some ()) (fun _ _ => (42 : Nat)) () 5 ()
        = Except.error CallError.authorization :=
  ⟨rfl, permissionDenied_blocks_execution (ValOrPred.val false) () rfl (fun _ => some ()) (fun _ _ => 42) 5 ()⟩

/-- C2: lifting preserves metadata — every metadata key present on the
original instance method is carried identically by the synthesized static
callable after the copy loop runs, and in particular an attached
permission rule evaluates to the same result through the lifted static
path as through the original instance path
(part_004 lines 215-219, part_001 lines 200-204). -/
theorem liftedMetadata_preserved {V Ctx : Type} (srcMeta dstMeta : Metadata V)
    (ruleSrc ruleDst : Metadata (PermissionRule Ctx)) (k : String) (ctx : Ctx)
    (hk : k ∈ getMetadataKeys srcMeta) (hr : k ∈ getMetadataKeys ruleSrc) :
    getMetadata k (copyMetadata srcMeta dstMeta) = getMetadata k srcMeta
      ∧ Option.map (fun r => ruleValue r ctx) (getMetadata k (copyMetadata ruleSrc ruleDst))
        = Option.map (fun r => ruleValue r ctx) (getMetadata k ruleSrc) := by
  constructor
  · exact copyFold_lookup_of_mem srcMeta _ dstMeta k hk (mem_keys_isSome srcMeta k hk)
  · have h := copyFold_lookup_of_mem ruleSrc _ ruleDst k hr (mem_keys_isSome ruleSrc k hr)
    rw [copyMetadata, getMetadata, h]

/-- Closed instance of `liftedMetadata_preserved`: a permission rule
attached under key "perm" survives the copy loop and evaluates alike on
both paths. -/
theorem liftedMetadata_preserved_witness :
    "perm" ∈ getMetadataKeys [("perm", (3 : Nat)), ("route", 9)]
      ∧ "perm" ∈ getMetadataKeys [("perm", (ValOrPred.pred (fun n : Nat => n == 3) : PermissionRule Nat))]
      ∧ getMetadata "perm" (copyMetadata [("perm", (3 : Nat)), ("route", 9)] [("perm", 5)])
        = getMetadata "perm" [("perm", (3 : Nat)), ("route", 9)] :=
  ⟨by decide, by decide,
    (liftedMetadata_preserved [("perm", (3 : Nat)), ("route", 9)] [("perm", 5)]
      [("perm", (ValOrPred.pred (fun n : Nat => n == 3) : PermissionRule Nat))] [] "perm" 3
      (by decide) (by decide)).1⟩

/-- C10: registering a lifted static callable is an unconditional
property assignment — the new callable is the one subsequently read, a
previously registered member of the same name is silently shadowed with
no Conflict reported, and after any sequence of registrations the member
read under a name is the one from the last registration for that name
(part_004 lines 211-213, part_001 lines 196-198). -/
theorem staticRegistration_overwrites {F : Type} (target : StaticsTable F)
    (name : String) (f g : F) (regs : List (String × F)) :
    getStaticMember (assignStaticMember target name f) name = some f
      ∧ getStaticMember (assignStaticMember (assignStaticMember target name g) name f) name = some f
      ∧ getStaticMember (assignAll target regs) name =
          (match lastAssigned regs name with
           | some v => some v
           | none => getStaticMember target name) := by
  refine ⟨lookup_cons_self _ name f, lookup_cons_self _ name f, ?_⟩
  induction regs generalizing target with
  | nil => rfl
  | cons r rs ih =>
    obtain ⟨rk, rv⟩ := r
    rw [assignAll, List.foldl_cons]
    have h := ih (assignStaticMember target rk rv)
    rw [assignAll] at h
    rw [h]
    cases hlast : lastAssigned rs name with
    | some v => simp [lastAssigned, hlast]
    | none =>
      by_cases hname : rk = name
      · subst hname
        simp [lastAssigned, hlast, getStaticMember, assignStaticMember, lookup_cons_self]
      · have hne : name ≠ rk := fun hcontra => hname hcontra.symm
        simp [lastAssigned, hlast, hname, getStaticMember, assignStaticMember,
          lookup_cons_ne target name rk rv hne]

/-- Unfolding of `caseVariantChar`. -/
theorem caseVariantChar_cases {a b : JChar} (h : caseVariantChar a b = true) :
    a = b ∨ (isAsciiLetter a = true ∧ isAsciiLetter b = true ∧ toLowerChar a = toLowerChar b) := by
  unfold caseVariantChar at h
  simp only [Bool.or_eq_true, Bool.and_eq_true, beq_iff_eq] at h
  tauto

/-- The underscore (code 95) is not an ASCII letter. -/
theorem underscore_not_letter : isAsciiLetter 95 = false := by decide

/-- `toLowerCase` is injective on the upper-case ASCII letters. -/
theorem toLowerChar_inj_upper {a b : JChar} (ha : isUpperAscii a = true)
    (hb : isUpperAscii b = true) (h : toLowerChar a = toLowerChar b) : a = b := by
  simp only [toLowerChar, if_pos ha, if_pos hb] at h
  exact Nat.add_right_cancel h

/-- A case variant of an upper-case letter is never the underscore. -/
theorem caseVariant_upper_ne_underscore {a b : JChar} (hab : caseVariantChar a b = true)
    (ha : isUpperAscii a = true) : b ≠ 95 := by
  intro hb95
  subst hb95
  rcases caseVariantChar_cases hab with h | ⟨_, hletter, _⟩
  · subst h
    simp [isUpperAscii] at ha
  · rw [underscore_not_letter] at hletter
    exact Bool.false_ne_true hletter

/-- Before the leading strip, the substitution of `/[A-Z]/g` is injective
over identifiers that differ only in letter casing: every upper-case
letter leaves an underscore marker, so the case pattern is recoverable. -/
theorem snakeCaseAux_inj (s : List JChar) : ∀ (t : List JChar),
    onlyCaseDiffers s t = true → snakeCaseAux s = snakeCaseAux t → s = t := by
  induction s with
  | nil =>
    intro t hvar _
    cases t with
    | nil => rfl
    | cons b t => simp [onlyCaseDiffers] at hvar
  | cons a s ih =>
    intro t hvar heq
    cases t with
    | nil => simp [onlyCaseDiffers] at hvar
    | cons b t =>
      rw [onlyCaseDiffers, Bool.and_eq_true] at hvar
      obtain ⟨hab, hst⟩ := hvar
      cases ha : isUpperAscii a <;> cases hb : isUpperAscii b
      · rw [snakeCaseAux, snakeCaseAux, if_neg (by simp [ha]), if_neg (by simp [hb])] at heq
        obtain ⟨h1, h2⟩ := List.cons.inj heq
        rw [h1, ih t hst h2]
      · rw [snakeCaseAux, snakeCaseAux, if_neg (by simp [ha]), if_pos hb] at heq
        obtain ⟨h1, _⟩ := List.cons.inj heq
        have := caseVariant_upper_ne_underscore (a := b) (b := a) ?_ hb
        · exact absurd h1 this
        · unfold caseVariantChar at hab ⊢
          simp only [Bool.or_eq_true, Bool.and_eq_true, beq_iff_eq] at hab ⊢
          tauto
      · rw [snakeCaseAux, snakeCaseAux, if_pos ha, if_neg (by simp [hb])] at heq
        obtain ⟨h1, _⟩ := List.cons.inj heq
        exact absurd h1 (Ne.symm (caseVariant_upper_ne_underscore hab ha))
      · rw [snakeCaseAux, snakeCaseAux, if_pos ha, if_pos hb] at heq
        obtain ⟨_, h2⟩ := List.cons.inj heq
        obtain ⟨hlow, h3⟩ := List.cons.inj h2
        rw [toLowerChar_inj_upper ha hb hlow, ih t hst h3]

/-- C6 counterexample: `name` and `Name` differ only in the casing of
their first letter, yet both derive the canonical name `name` — the
leading-underscore strip erases the case of the first character, so the
derivation is not injective over letter casing as claimed. -/
theorem snakeCase_casing_collision :
    onlyCaseDiffers [110, 97, 109, 101] [78, 97, 109, 101] = true
      ∧ ([110, 97, 109, 101] : List JChar) ≠ [78, 97, 109, 101]
      ∧ snakeCaseName [110, 97, 109, 101] = snakeCaseName [78, 97, 109, 101] := by
  decide

/-- C6 (amended): the derivation is injective over letter casing except
for the case of the first character — for any two distinct identifiers
that differ only in the casing of their letters and agree on whether
their first character is upper-case, the derived canonical names are
distinct. -/
theorem snakeCase_injective_past_first (s t : List JChar)
    (hvar : onlyCaseDiffers s t = true)
    (hhead : firstCharUpper s = firstCharUpper t)
    (heq : snakeCaseName s = snakeCaseName t) : s = t := by
  cases s with
  | nil =>
    cases t with
    | nil => rfl
    | cons b t => simp [onlyCaseDiffers] at hvar
  | cons a s =>
    cases t with
    | nil => simp [onlyCaseDiffers] at hvar
    | cons b t =>
      rw [onlyCaseDiffers, Bool.and_eq_true] at hvar
      obtain ⟨hab, hst⟩ := hvar
      rw [firstCharUpper, firstCharUpper] at hhead
      cases ha : isUpperAscii a with
      | true =>
        have hb : isUpperAscii b = true := by rw [← hhead, ha]
        rw [snakeCaseName, snakeCaseName, snakeCaseAux, snakeCaseAux,
          if_pos ha, if_pos hb, stripLeadingUnderscore, stripLeadingUnderscore,
          if_pos rfl, if_pos rfl] at heq
        obtain ⟨hlow, h2⟩ := List.cons.inj heq
        rw [toLowerChar_inj_upper ha hb hlow, snakeCaseAux_inj s t hst h2]
      | false =>
        have hb : isUpperAscii b = false := by rw [← hhead, ha]
        rw [snakeCaseName, snakeCaseName, snakeCaseAux, snakeCaseAux,
          if_neg (by simp [ha]), if_neg (by simp [hb]),
          stripLeadingUnderscore, stripLeadingUnderscore] at heq
        by_cases h95 : a = 95
        · have hb95 : b = 95 := by
            rcases caseVariantChar_cases hab with h | ⟨hla, _, _⟩
            · rw [← h, h95]
            · rw [h95, underscore_not_letter] at hla
              exact absurd hla Bool.false_ne_true
          rw [if_pos h95, if_pos hb95] at heq
          rw [h95, hb95, snakeCaseAux_inj s t hst heq]
        · have hb95 : b ≠ 95 := by
            intro hcontra
            rcases caseVariantChar_cases hab with h | ⟨_, hlb, _⟩
            · exact h95 (h.trans hcontra)
            · rw [hcontra, underscore_not_letter] at hlb
              exact Bool.false_ne_true hlb
          rw [if_neg h95, if_neg hb95] at heq
          obtain ⟨h1, h2⟩ := List.cons.inj heq
          rw [h1, snakeCaseAux_inj s t hst h2]

/-- Closed instance of `snakeCase_injective_past_first` at the identifier
`fooBar`: its hypotheses are satisfiable and the theorem applies. -/
theorem snakeCase_injective_past_first_witness :
    onlyCaseDiffers [102, 111, 111, 66, 97, 114] [102, 111, 111, 66, 97, 114] = true
      ∧ ([102, 111, 111, 66, 97, 114] : List JChar) = [102, 111, 111, 66, 97, 114] :=
  ⟨by decide,
    snakeCase_injective_past_first [102, 111, 111, 66, 97, 114] [102, 111, 111, 66, 97, 114]
      (by decide) rfl rfl⟩

/-- C9 counterexample: the `GraphQLInt` scalar object is not the `Number`,
`String` or `Boolean` constructor and is not enum-shaped, so under the
claim's "every other value" clause it would map to
`GraphQLInputObjectType`; the code's first branch maps it to `GraphQLInt`
instead. -/
theorem getGraphQLType_gqlInt_counterexample :
    isEnum JSTypeValue.gqlIntScalar = false
      ∧ JSTypeValue.gqlIntScalar ≠ JSTypeValue.ctorNumber
      ∧ JSTypeValue.gqlIntScalar ≠ JSTypeValue.ctorString
      ∧ JSTypeValue.gqlIntScalar ≠ JSTypeValue.ctorBoolean
      ∧ getGraphQLType JSTypeValue.gqlIntScalar = GQLTypeRef.int
      ∧ getGraphQLType JSTypeValue.gqlIntScalar ≠ GQLTypeRef.inputObjectType :=
  ⟨rfl, fun h => JSTypeValue.noConfusion h, fun h => JSTypeValue.noConfusion h,
    fun h => JSTypeValue.noConfusion h, rfl, by decide⟩

/-- C9 (amended): the classification of `getGraphQLType` in full — any
non-null object all of whose own property values are strings or numbers
is inferred as an enum type, including the empty object `\x7b\x7d`; the
`Number`, `String` and `Boolean` constructors map to float, string and
boolean; the `GraphQLInt` scalar maps to `GraphQLInt`; and every other
value maps to `GraphQLInputObjectType`. -/
theorem getGraphQLType_classification :
    (∀ fields, fields.all (fun kv => isStringOrNumber kv.2) = true →
        getGraphQLType (JSTypeValue.jsObject fields) = GQLTypeRef.enumType)
      ∧ getGraphQLType (JSTypeValue.jsObject []) = GQLTypeRef.enumType
      ∧ getGraphQLType JSTypeValue.ctorNumber = GQLTypeRef.float
      ∧ getGraphQLType JSTypeValue.ctorString = GQLTypeRef.string
      ∧ getGraphQLType JSTypeValue.ctorBoolean = GQLTypeRef.boolean
      ∧ getGraphQLType JSTypeValue.gqlIntScalar = GQLTypeRef.int
      ∧ ∀ v, v ≠ JSTypeValue.ctorNumber → v ≠ JSTypeValue.ctorString →
          v ≠ JSTypeValue.ctorBoolean → v ≠ JSTypeValue.gqlIntScalar →
          isEnum v = false → getGraphQLType v = GQLTypeRef.inputObjectType := by
  refine ⟨?_, rfl, rfl, rfl, rfl, rfl, ?_⟩
  · intro fields hfields
    simp [getGraphQLType, isEnum, hfields]
  · intro v hn hs hb hi henum
    cases v <;> simp_all [getGraphQLType, isEnum]

/-- Closed instance of `getGraphQLType_classification`: a two-member
enum-shaped object is inferred as an enum type, and a function value
falls through to the input-object fallback. -/
theorem getGraphQLType_classification_witness :
    ([("A", JSTypeValue.primString "a"), ("B", JSTypeValue.primNumber 1)].all
        (fun kv => isStringOrNumber kv.2) = true)
      ∧ getGraphQLType (JSTypeValue.jsObject
          [("A", JSTypeValue.primString "a"), ("B", JSTypeValue.primNumber 1)])
        = GQLTypeRef.enumType
      ∧ getGraphQLType JSTypeValue.jsFunction = GQLTypeRef.inputObjectType :=
  ⟨rfl,
    getGraphQLType_classification.1 _ rfl,
    getGraphQLType_classification.2.2.2.2.2.2 JSTypeValue.jsFunction
      (fun h => JSTypeValue.noConfusion h) (fun h => JSTypeValue.noConfusion h)
      (fun h => JSTypeValue.noConfusion h) (fun h => JSTypeValue.noConfusion h) rfl⟩

/-- C7: descriptor construction defaults both autogen flags to true, and
forces the corresponding flag to true whenever the caller supplies a
protocol-specific options object — `typeRESTOptions` forces
`autogenTypeRest`, and any of `typeGQLQueryOptions`,
`typeGQLMutationOptions`, `typeGQLSubscriptionOptions` forces
`autogenTypeGQL` — even when the caller explicitly set the flag to false
(part_001 lines 269-278, part_004 lines 286-295). -/
theorem actionProps_autogen_defaults_and_forcing (propertyKey : List JChar)
    (props : ActionInputProps) :
    (props.autogenTypeRest = none →
        (buildActionProps propertyKey props).autogenTypeRest = some true)
      ∧ (props.autogenTypeGQL = none →
        (buildActionProps propertyKey props).autogenTypeGQL = some true)
      ∧ (props.typeRESTOptions.isSome = true →
        (buildActionProps propertyKey props).autogenTypeRest = some true)
      ∧ ((props.typeGQLQueryOptions.isSome = true ∨ props.typeGQLMutationOptions.isSome = true
            ∨ props.typeGQLSubscriptionOptions.isSome = true) →
        (buildActionProps propertyKey props).autogenTypeGQL = some true) := by
  refine ⟨?_, ?_, ?_, ?_⟩
  · intro h
    simp [buildActionProps, spreadMerge, overrideField, DEFAULT_ACTION_PROPS,
      DEFAULT_TYPE_REST_ACTION_PROPS, DEFAULT_TYPE_GQL_ACTION_PROPS, h]
    all_goals (split_ifs <;> rfl)
  · intro h
    simp [buildActionProps, spreadMerge, overrideField, DEFAULT_ACTION_PROPS,
      DEFAULT_TYPE_REST_ACTION_PROPS, DEFAULT_TYPE_GQL_ACTION_PROPS, h]
    all_goals (split_ifs <;> rfl)
  · intro h
    simp [buildActionProps, h]
    all_goals (split_ifs <;> rfl)
  · intro h
    rcases h with h | h | h <;>
      simp [buildActionProps, h]

/-- Closed instance of `actionProps_autogen_defaults_and_forcing`: the
caller of `exampleForcedProps` sets both autogen flags to false yet
supplies `typeRESTOptions` and `typeGQLSubscriptionOptions`, so both
flags come out true; a caller supplying nothing gets both defaults. -/
theorem actionProps_autogen_forcing_witness :
    exampleForcedProps.typeRESTOptions.isSome = true
      ∧ (buildActionProps [] exampleForcedProps).autogenTypeRest = some true
      ∧ (buildActionProps [] exampleForcedProps).autogenTypeGQL = some true
      ∧ (buildActionProps [] {}).autogenTypeRest = some true
      ∧ (buildActionProps [] {}).autogenTypeGQL = some true :=
  ⟨rfl,
    (actionProps_autogen_defaults_and_forcing [] exampleForcedProps).2.2.1 rfl,
    (actionProps_autogen_defaults_and_forcing [] exampleForcedProps).2.2.2
      (Or.inr (Or.inr rfl)),
    (actionProps_autogen_defaults_and_forcing [] {}).1 rfl,
    (actionProps_autogen_defaults_and_forcing [] {}).2.1 rfl⟩

/-- C8: invalid operation configuration fails when the decorator is
applied — bind time — not at call time: `gqlMethod = "subscription"`
without a subscription options object is an error, and a `restVerb` or
`gqlMethod` outside the recognized enumerations is an error; in each case
the bind returns no binding, so no bound callable ever exists to be
invoked (part_004 lines 81-185, part_001 lines 68-174). -/
theorem bind_configuration_errors (props : ActionInputProps) :
    (props.gqlMethod = some GqlMethod.subscription →
        props.typeGQLSubscriptionOptions = none →
        staticTypeGQLActionBind props = Except.error ConfigError.subscriptionOptionsRequired)
      ∧ (∀ s, props.restVerb = some (RestVerb.other s) →
        staticTypeRESTActionBind props = Except.error ConfigError.invalidRestVerb)
      ∧ (∀ s, props.gqlMethod = some (GqlMethod.other s) →
        staticTypeGQLActionBind props = Except.error ConfigError.invalidGqlMethod) := by
  refine ⟨?_, ?_, ?_⟩
  · intro h1 h2
    simp [staticTypeGQLActionBind, h1, h2]
  · intro s h
    simp [staticTypeRESTActionBind, h]
  · intro s h
    simp [staticTypeGQLActionBind, h]

/-- Closed instance of `bind_configuration_errors`: a subscription without
options and an unrecognized verb string both fail at bind time. -/
theorem bind_configuration_errors_witness :
    ({ gqlMethod := some GqlMethod.subscription } : ActionInputProps).gqlMethod
        = some GqlMethod.subscription
      ∧ staticTypeGQLActionBind { gqlMethod := some GqlMethod.subscription }
        = Except.error ConfigError.subscriptionOptionsRequired
      ∧ staticTypeRESTActionBind { restVerb := some (RestVerb.other [88]) }
        = Except.error ConfigError.invalidRestVerb :=
  ⟨rfl,
    (bind_configuration_errors { gqlMethod := some GqlMethod.subscription }).1 rfl rfl,
    (bind_configuration_errors { restVerb := some (RestVerb.other [88]) }).2.1 [88] rfl⟩

/-- C5: the part_002 classifier variant breaks mutual exclusion — for a
class carrying a static method `foo` with no `foo` on its prototype, its
`isStaticMethod` and `isInstanceMethod` both report true, because its
third conjunct tests prototype membership rather than excluding statics
(its own inline comment, "otherwise it'd be a static method", states the
intended exclusion that src/utils/typescript.ts implements). -/
theorem classifierPart002_both_true :
    isStaticMethodPart002 ⟨[("foo", JSMember.func)], []⟩ "foo" = true
      ∧ isInstanceMethodPart002 ⟨[("foo", JSMember.func)], []⟩ "foo" = true := by
  decide

end TypeServer
